import Mathlib

/-!
Verification of the pricing-record core (oracle/pricing_record.cpp and
serialization/pricing_record.h) against its natural-language specification.

The C++ sources are shallowly embedded: machine integers (uint64_t, bytes)
become `Nat` with explicit `% 2 ^ 64` / `% 256` where overflow or truncation
matters; the fixed 64-byte `char signature[64]` buffer becomes a `List Nat`
of length 64 whose entries are byte values; C strings become `List Char`;
fallible operations return `Option`/`Except`.  Results of calls into
external libraries (libc `strtol` is modelled; OpenSSL call outcomes and
configuration constants are free parameters) are made explicit.
-/

namespace oracle

/-- Modelled from the spec: the chain network type (`cryptonote::network_type`).
Its definition lives in cryptonote_config.h, which is not part of the supplied
sources; the spec only uses it to select the trusted oracle public key, so an
abstract enumeration suffices. -/
inductive network_type
  | mainnet
  | testnet
  | stagenet
  | fakechain
  | undefined
deriving DecidableEq, Repr

/-- Modelled from the spec: the record layout (spec section 3; the header
oracle/pricing_record.h is not among the supplied sources, but the field set,
types and the 64-byte signature size are fixed by the spec and by every use in
pricing_record.cpp: four unsigned 64-bit fields and `char signature[64]`).
Byte values of `signature` are naturals below 256. -/
structure pricing_record where
  pr_version : Nat
  spot : Nat
  moving_average : Nat
  timestamp : Nat
  signature : List Nat
deriving DecidableEq, Repr

/-- Embeds the default constructor `pricing_record::pricing_record()`:
all integer fields zero, signature memset to zero.  In pricing_record.cpp's
`empty()` this instance is named `empty_pr`. -/
def empty_pr : pricing_record :=
  { pr_version := 0, spot := 0, moving_average := 0, timestamp := 0
  , signature := List.replicate 64 0 }

/-- Embeds `pricing_record::equal`: field-wise comparison, with the signature
buffer compared in full (memcmp over the 64 bytes becomes list equality). -/
def pricing_record.equal (a b : pricing_record) : Bool :=
  (a.pr_version == b.pr_version) && (a.spot == b.spot) &&
  (a.moving_average == b.moving_average) && (a.timestamp == b.timestamp) &&
  (a.signature == b.signature)

/-- Embeds `pricing_record::empty`: equality with a default-constructed
record. -/
def pricing_record.empty (r : pricing_record) : Bool :=
  r.equal empty_pr

/-- Embeds `pricing_record::has_missing_rates`. -/
def pricing_record.has_missing_rates (r : pricing_record) : Bool :=
  (r.spot == 0) || (r.moving_average == 0)

/-! ### The hex transcoder

`store` renders each signature byte as two lowercase hex digits
(`std::hex`, `std::setw(2)`, `std::setfill('0')` on `0xff & signature[i]`);
`_load` parses the incoming string two characters at a time with
`strtol(..., NULL, 16)`.  `strtol` is libc; it is modelled here on the
inputs the program feeds it (strings of at most two characters, so no
`long` overflow is reachable): leading C whitespace skipped, an optional
sign, an optional `0x`/`0X` prefix when followed by a hex digit, then the
longest run of hex digits; an empty subject sequence yields 0. -/

/-- C `isspace` in the default locale. -/
def isSpaceC (c : Char) : Bool :=
  c = ' ' || c = '\t' || c = '\n' || c = '\x0b' || c = '\x0c' || c = '\r'

/-- Value of one hex digit, `none` on a non-digit. -/
def hexDigitVal (c : Char) : Option Nat :=
  if '0' ≤ c ∧ c ≤ '9' then some (c.toNat - 48)
  else if 'a' ≤ c ∧ c ≤ 'f' then some (c.toNat - 87)
  else if 'A' ≤ c ∧ c ≤ 'F' then some (c.toNat - 55)
  else none

/-- Accumulate the longest run of leading hex digits (base 16). -/
def parseHexDigitsAcc : List Char → Nat → Nat
  | [], acc => acc
  | c :: rest, acc =>
    match hexDigitVal c with
    | some d => parseHexDigitsAcc rest (acc * 16 + d)
    | none => acc

/-- Whether a list starts with a hex digit. -/
def hasHexHead : List Char → Bool
  | [] => false
  | c :: _ => (hexDigitVal c).isSome

/-- Body of `strtol` base 16 after whitespace and sign: optional `0x`/`0X`
prefix (consumed only when a hex digit follows), then digits. -/
def parseHexBody (r : List Char) : Nat :=
  match r with
  | '0' :: x :: rest =>
    if (x = 'x' || x = 'X') && hasHexHead rest then parseHexDigitsAcc rest 0
    else parseHexDigitsAcc r 0
  | _ => parseHexDigitsAcc r 0

/-- Model of libc `strtol(s, NULL, 16)` on the short strings this program
passes it. -/
def strtol16 (s : List Char) : Int :=
  match s.dropWhile (fun c => isSpaceC c) with
  | '-' :: r => -(Int.ofNat (parseHexBody r))
  | '+' :: r => Int.ofNat (parseHexBody r)
  | s1 => Int.ofNat (parseHexBody s1)

/-- Embeds `(char) strtol(byteString.c_str(), NULL, 16)` as later read back
through `0xff & signature[i]`: the stored byte is the parsed value modulo
256 (two's complement narrowing). -/
def byteOfStr (s : List Char) : Nat :=
  ((strtol16 s) % 256).toNat

/-- A bounds-checked buffer write: the C array write `signature[i] = v` is
in bounds only for `i < 64`; out of range the embedding returns `none`
where the C program's behaviour is undefined. -/
def setByte (buf : List Nat) (i : Nat) (v : Nat) : Option (List Nat) :=
  if i < buf.length then some (buf.set i v) else none

/-- Embeds the signature-decoding loop of `pricing_record::_load`:
`for (i = 0; i < sig.length(); i += 2) signature[i>>1] = (char)strtol(sig.substr(i,2), NULL, 16)`.
The loop is phrased over the remaining characters: each iteration takes
`substr(i,2)` (the next at most two characters) and writes index `i >> 1`
(the running counter `k`). -/
def loadSigLoop : List Char → Nat → List Nat → Option (List Nat)
  | [], _, buf => some buf
  | [c], k, buf => setByte buf k (byteOfStr [c])
  | c1 :: c2 :: rest, k, buf =>
    match setByte buf k (byteOfStr [c1, c2]) with
    | some buf2 => loadSigLoop rest (k + 1) buf2
    | none => none

/-- Embeds the anonymous-namespace struct `pr_serialized`: the wire form of
a record, integer fields plus the signature as hex text. -/
structure pr_serialized where
  pr_version : Nat
  spot : Nat
  moving_average : Nat
  timestamp : Nat
  signature : List Char
deriving DecidableEq, Repr

/-- Embeds `pricing_record::_load` given an already parsed `pr_serialized`
(the surrounding epee portable-storage parse is an external collaborator):
the integer fields are copied and the signature hex text is decoded into
the signature buffer of the default-constructed (all-zero) record the
deserializer fills.  `none` marks the out-of-bounds buffer write that the
loop performs on over-long signature strings. -/
def pricing_record._load (w : pr_serialized) : Option pricing_record :=
  match loadSigLoop w.signature 0 (List.replicate 64 0) with
  | some sig =>
    some { pr_version := w.pr_version, spot := w.spot
         , moving_average := w.moving_average, timestamp := w.timestamp
         , signature := sig }
  | none => none

/-- Lowercase hex digit character for a value below 16 (`std::hex` output). -/
def hexDigitChar (n : Nat) : Char :=
  if n < 10 then Char.ofNat (48 + n) else Char.ofNat (87 + n)

/-- Embeds one iteration of the rendering loop of `pricing_record::store`:
`ss << std::hex << std::setw(2) << std::setfill('0') << (0xff & signature[i])`,
two lowercase hex digits of the byte value. -/
def byteToHex (b : Nat) : List Char :=
  [hexDigitChar ((b % 256) / 16), hexDigitChar ((b % 256) % 16)]

/-- Embeds the full rendering loop of `pricing_record::store`
(`for i in 0..63`, reading `signature[i]`). -/
def sigToHex (sig : List Nat) : List Char :=
  ((List.range 64).map (fun i => byteToHex (sig.getD i 0))).flatten

/-- Embeds `pricing_record::store`: the wire form built from a record. -/
def pricing_record.store (r : pricing_record) : pr_serialized :=
  { pr_version := r.pr_version, spot := r.spot
  , moving_average := r.moving_average, timestamp := r.timestamp
  , signature := sigToHex r.signature }

/-! ### The signature verifier -/

/-- Embeds the message construction of `pricing_record::verifySignature`:
the `std::ostringstream` writes, in order, the literal pieces and the four
integer fields in decimal (`operator<<` on `uint64_t`). -/
def pricing_record.buildMessage (r : pricing_record) : String :=
  "\x7b\"pr_version\":" ++ Nat.repr r.pr_version ++
  ",\"spot\":" ++ Nat.repr r.spot ++
  ",\"moving_average\":" ++ Nat.repr r.moving_average ++
  ",\"timestamp\":" ++ Nat.repr r.timestamp ++
  "\x7d"

/-- Follows the spec's words (spec section 6, "Signed message format"), as
the reference side of the refinement claim about the signed message: a
compact text object listing the four named fields as decimal integers, in
exactly the given order, joined with commas and no whitespace. -/
def specSignedMessage (pr_version spot moving_average timestamp : Nat) :
    String :=
  "\x7b" ++ String.intercalate ","
    [ "\"pr_version\":" ++ Nat.repr pr_version
    , "\"spot\":" ++ Nat.repr spot
    , "\"moving_average\":" ++ Nat.repr moving_average
    , "\"timestamp\":" ++ Nat.repr timestamp ] ++ "\x7d"

/-- Outcomes of the external OpenSSL calls made by `verifySignature`, one
field per call site in source order.  The digest-final outcome (the actual
cryptographic check) may depend on the message bytes and the 64 signature
bytes handed to it, so it is a function of both. -/
structure evp_env where
  bio_new_ok : Bool
  pem_read_ok : Bool
  ctx_create_ok : Bool
  digest_init_ok : Bool
  digest_update_ok : Bool
  digest_final_ok : String → List Nat → Bool

/-- The two `CHECK_AND_ASSERT_THROW_MES` exits of `verifySignature`, in
source order: the empty-key precondition and the failed PEM parse. -/
inductive assert_throw
  | null_public_key
  | unparsable_public_key
deriving DecidableEq, Repr

/-- Embeds `pricing_record::verifySignature`: a thrown
`CHECK_AND_ASSERT_THROW_MES` becomes `Except.error`, a returned `bool`
becomes `Except.ok`.  Control flow follows the source: empty key throws;
a failed `BIO_new_mem_buf` returns false; a null result from
`PEM_read_bio_PUBKEY` throws; then `ret` is 1 exactly when context
creation, `EVP_DigestVerifyInit`, `EVP_DigestVerifyUpdate` and
`EVP_DigestVerifyFinal` (on the built message and the 64 signature bytes)
all succeed, and the function returns `ret == 1`. -/
def pricing_record.verifySignature (env : evp_env) (public_key : String)
    (r : pricing_record) : Except assert_throw Bool :=
  if public_key.isEmpty then .error .null_public_key
  else if env.bio_new_ok = false then .ok false
  else if env.pem_read_ok = false then .error .unparsable_public_key
  else if env.ctx_create_ok = false then .ok false
  else if env.digest_init_ok = false then .ok false
  else if env.digest_update_ok = false then .ok false
  else .ok (env.digest_final_ok r.buildMessage r.signature)

/-! ### The admissibility policy -/

/-- Labels for the exits of `pricing_record::valid`: each rejecting early
return of the source carries its own distinct log message, and `accept`
is the final `return true`. -/
inductive valid_outcome
  | accept
  | rejectBeforeActivation
  | rejectMissingRates
  | rejectInvalidSignature
  | rejectTimestampTooFarInFuture
  | rejectTimestampNotAdvancing
deriving DecidableEq, Repr

/-- Embeds `pricing_record::valid(nettype, hf_version, bl_timestamp,
last_bl_timestamp)` with each exit labelled.  Quantities the supplied
sources use but do not define are explicit parameters: `verify` is the
outcome of `verifySignature(get_config(nettype).ORACLE_PUBLIC_KEY)` (the
key table and the cryptographic result are external, so it is a free
function of the network type and the record); `hfSlippageYield` is the
constant `HF_VERSION_SLIPPAGE_YIELD` and `skew` the constant
`PRICING_RECORD_VALID_TIME_DIFF_FROM_BLOCK`, both from cryptonote_config.h.
`bl_timestamp + skew` is computed in `uint64_t`, hence the `% 2 ^ 64`. -/
def pricing_record.validR (verify : network_type → pricing_record → Bool)
    (hfSlippageYield skew : Nat) (r : pricing_record) (nettype : network_type)
    (hf_version bl_timestamp last_bl_timestamp : Nat) : valid_outcome :=
  if hf_version < hfSlippageYield ∧ r.empty = false then .rejectBeforeActivation
  else if r.empty = true then .accept
  else if r.has_missing_rates = true then .rejectMissingRates
  else if verify nettype r = false then .rejectInvalidSignature
  else if (bl_timestamp + skew) % 2 ^ 64 < r.timestamp then
    .rejectTimestampTooFarInFuture
  else if r.timestamp ≤ last_bl_timestamp then .rejectTimestampNotAdvancing
  else .accept

/-- The boolean verdict of `pricing_record::valid`: true exactly on the
accepting path, false on every rejecting early return. -/
def pricing_record.valid (verify : network_type → pricing_record → Bool)
    (hfSlippageYield skew : Nat) (r : pricing_record) (nettype : network_type)
    (hf_version bl_timestamp last_bl_timestamp : Nat) : Bool :=
  pricing_record.validR verify hfSlippageYield skew r nettype hf_version
    bl_timestamp last_bl_timestamp == .accept

/-! ### Binary-blob deserialization -/

/-- A binary read archive (the epee `Archive<false>` the template is
instantiated with): the full input byte string and the read position. -/
structure binary_archive where
  data : List Nat
  pos : Nat
deriving DecidableEq, Repr

/-- Embeds `ar.remaining_bytes()`. -/
def binary_archive.remaining_bytes (ar : binary_archive) : Nat :=
  ar.data.length - ar.pos

/-- Modelled from the spec: `sizeof(oracle::pricing_record)`.  The struct
definition (oracle/pricing_record.h) is not among the supplied sources;
spec section 6 fixes the layout as four 8-byte unsigned integers followed
by the 64 raw signature bytes, 96 bytes total with no padding. -/
def SIZEOF_PRICING_RECORD : Nat := 96

/-- Value of eight little-endian bytes (the in-memory `uint64_t`
representation `serialize_blob` copies on the little-endian platforms the
spec's open endianness note is resolved to here). -/
def u64le (bs : List Nat) : Nat :=
  bs.foldr (fun b acc => b % 256 + 256 * acc) 0

/-- The record whose memory image is the given 96-byte blob: four 8-byte
little-endian integers, then the 64 signature bytes. -/
def recordOfBlob (bs : List Nat) : pricing_record :=
  { pr_version := u64le (bs.take 8)
  , spot := u64le ((bs.drop 8).take 8)
  , moving_average := u64le ((bs.drop 16).take 8)
  , timestamp := u64le ((bs.drop 24).take 8)
  , signature := (bs.drop 32).take 64 }

/-- Embeds the reading `ar.serialize_blob(&pr, sizeof(pricing_record))`
call together with the subsequent `ar.good()` check: it either consumes
exactly `n` bytes or fails. -/
def serialize_blob_read (ar : binary_archive) (n : Nat) :
    Option (List Nat × binary_archive) :=
  if ar.pos + n ≤ ar.data.length then
    some ((ar.data.drop ar.pos).take n, { data := ar.data, pos := ar.pos + n })
  else none

/-- Embeds the reading `do_serialize(Archive<false>, oracle::pricing_record)`
of serialization/pricing_record.h: fail when fewer than
`sizeof(pricing_record)` bytes remain, otherwise read the whole blob into
the record. -/
def do_serialize_read (ar : binary_archive) :
    Option (pricing_record × binary_archive) :=
  if ar.remaining_bytes < SIZEOF_PRICING_RECORD then none
  else
    match serialize_blob_read ar SIZEOF_PRICING_RECORD with
    | some (bs, ar2) => some (recordOfBlob bs, ar2)
    | none => none

/-! ### Transcoder lemmas -/

set_option maxRecDepth 4000 in
/-- Each byte below 256 survives the render/parse pair: rendering as two
lowercase hex digits and reading them back through the `strtol` model
returns the byte. -/
theorem byteOfStr_byteToHex : ∀ b < 256, byteOfStr (byteToHex b) = b := by
  decide

/-- Exact characterization of when the signature-decoding loop runs out of
the 64-byte buffer: it fails precisely when some processed pair's write
index reaches past the end, i.e. when the buffer is shorter than the final
write position. -/
theorem loadSigLoop_none_iff (cs : List Char) (k : Nat) (buf : List Nat) :
    loadSigLoop cs k buf = none ↔
      (cs ≠ [] ∧ buf.length < k + (cs.length + 1) / 2) := by
  induction cs, k, buf using loadSigLoop.induct with
  | case1 k buf => simp [loadSigLoop]
  | case2 c k buf =>
    simp only [loadSigLoop, setByte]
    constructor
    · intro h
      refine ⟨by simp, ?_⟩
      by_cases hk : k < buf.length
      · simp [hk] at h
      · simp only [List.length_cons, List.length_nil]
        omega
    · rintro ⟨-, h⟩
      have : ¬ k < buf.length := by
        simp only [List.length_cons, List.length_nil] at h
        omega
      simp [this]
  | case3 c1 c2 rest k buf buf2 h ih =>
    have hk : k < buf.length := by
      by_contra hk
      simp [setByte, hk] at h
    have hlen2 : buf2.length = buf.length := by
      simp only [setByte, if_pos hk, Option.some.injEq] at h
      rw [← h]
      simp
    simp only [loadSigLoop, h]
    rw [ih]
    cases rest with
    | nil => simp; omega
    | cons c3 rest2 =>
      simp only [List.length_cons, ne_eq, reduceCtorEq, not_false_eq_true,
        true_and, hlen2]
      omega
  | case4 c1 c2 rest k buf h =>
    have hk : ¬ k < buf.length := by
      by_contra hk
      simp [setByte, hk] at h
    simp [loadSigLoop, h]
    omega

/-- The loop writes the rendered bytes back in place: starting at write
index `k` on the rendered form of `sig`, it succeeds and replaces the
slice `[k, k + sig.length)` of the buffer with `sig`, byte for byte. -/
theorem loadSigLoop_flatten_byteToHex :
    ∀ (sig : List Nat) (k : Nat) (buf : List Nat),
    (∀ b ∈ sig, b < 256) → k + sig.length ≤ buf.length →
    loadSigLoop ((sig.map byteToHex).flatten) k buf =
      some (buf.take k ++ sig ++ buf.drop (k + sig.length)) := by
  intro sig
  induction sig with
  | nil =>
    intro k buf _ _
    simp [loadSigLoop]
  | cons b bs ih =>
    intro k buf hb hlen
    have hb256 : b < 256 := hb b (List.mem_cons_self b bs)
    have hlen' : k + (bs.length + 1) ≤ buf.length := by simpa using hlen
    have hk : k < buf.length := by omega
    have hstep :
        loadSigLoop (((b :: bs).map byteToHex).flatten) k buf =
          loadSigLoop ((bs.map byteToHex).flatten) (k + 1) (buf.set k b) := by
      show loadSigLoop
          (hexDigitChar (b % 256 / 16) :: hexDigitChar (b % 256 % 16) ::
            (bs.map byteToHex).flatten) k buf = _
      simp only [loadSigLoop]
      rw [show [hexDigitChar (b % 256 / 16), hexDigitChar (b % 256 % 16)] =
        byteToHex b from rfl]
      rw [byteOfStr_byteToHex b hb256]
      simp [setByte, hk]
    rw [hstep, ih (k + 1) (buf.set k b)
      (fun b2 hb2 => hb b2 (List.mem_cons_of_mem b hb2))
      (by simp only [List.length_set]; omega)]
    have htake : (buf.set k b).take (k + 1) = buf.take k ++ [b] := by
      rw [List.set_eq_take_cons_drop b hk]
      rw [show buf.take k ++ b :: buf.drop (k + 1) =
        (buf.take k ++ [b]) ++ buf.drop (k + 1) by simp]
      rw [List.take_left']
      simp only [List.length_append, List.length_take, List.length_cons,
        List.length_nil]
      omega
    have hdrop : (buf.set k b).drop (k + 1 + bs.length) =
        buf.drop (k + 1 + bs.length) := by
      rw [List.drop_set, if_pos (by omega)]
    rw [htake, hdrop]
    have : k + (b :: bs).length = k + 1 + bs.length := by simp; omega
    rw [this]
    simp

/-- Bridge between the index-driven rendering loop of `store` (which reads
`signature[i]` for `i` in `0..63`) and the byte list it renders, for
buffers of the fixed size 64. -/
theorem sigToHex_eq_flatten (sig : List Nat) (h : sig.length = 64) :
    sigToHex sig = (sig.map byteToHex).flatten := by
  have hgen : ∀ l : List Nat,
      (List.range l.length).map (fun i => byteToHex (l.getD i 0)) =
        l.map byteToHex := by
    intro l
    induction l with
    | nil => simp
    | cons a t iht =>
      rw [show (a :: t).length = t.length + 1 from rfl, List.range_succ_eq_map]
      simp only [List.map_cons, List.map_map, List.getD_cons_zero]
      refine congrArg (byteToHex a :: ·) ?_
      rw [← iht]
      apply List.map_congr_left
      intro i _
      simp [List.getD_cons_succ]
  rw [sigToHex, ← h, hgen]

/-- Decoding the rendered signature of a 64-byte buffer into a fresh
all-zero buffer returns exactly the original buffer. -/
theorem loadSigLoop_sigToHex (sig : List Nat) (hlen : sig.length = 64)
    (hbytes : ∀ b ∈ sig, b < 256) :
    loadSigLoop (sigToHex sig) 0 (List.replicate 64 0) = some sig := by
  rw [sigToHex_eq_flatten sig hlen,
    loadSigLoop_flatten_byteToHex sig 0 (List.replicate 64 0) hbytes
      (by simp [hlen])]
  simp [hlen]

/-! ### Claims -/

/-- C1 (counterexample): the wire decoder does NOT reject a signature hex
text that cannot be decoded into exactly 64 bytes.  The concrete wire
record with signature text "zz" — two characters, so not 128, and not hex
digits — is decoded successfully by `_load` instead of being rejected. -/
theorem claim_C1_counterexample :
    hexDigitVal 'z' = none ∧
    (pr_serialized.mk 7 8 9 10 ['z', 'z']).signature.length ≠ 128 ∧
    (pricing_record._load (pr_serialized.mk 7 8 9 10 ['z', 'z'])).isSome
      = true := by
  refine ⟨rfl, by decide, ?_⟩
  decide

/-- C1 (amended): wire decoding performs no validation of the signature
hex text: for every wire input whose signature string has length at most
128 — in particular odd-length, non-hex, or short inputs — `_load`
succeeds, silently decoding what `strtol` parses (non-hex pairs become 0)
and leaving the remaining signature bytes zero; there is no
malformed-encoding failure. -/
theorem claim_C1_amended (w : pr_serialized)
    (hlen : w.signature.length ≤ 128) :
    (pricing_record._load w).isSome = true := by
  cases hload : loadSigLoop w.signature 0 (List.replicate 64 0) with
  | some s =>
    simp only [pricing_record._load]
    rw [hload]
    rfl
  | none =>
    exfalso
    have h := (loadSigLoop_none_iff w.signature 0
      (List.replicate 64 0)).mp hload
    simp only [List.length_replicate] at h
    omega

/-- C1 (amended, witness): the odd-length non-128 signature text "a" is
accepted by the wire decoder. -/
theorem claim_C1_amended_witness :
    (pricing_record._load (pr_serialized.mk 1 2 3 4 ['a'])).isSome = true :=
  claim_C1_amended (pr_serialized.mk 1 2 3 4 ['a']) (by decide)

/-- C2: the signature-decoding loop of `_load` stays inside the 64-byte
buffer exactly for signature strings of length at most 128; for any longer
string the loop reaches write index 64, the in-bounds condition fails and
the embedded decoder returns `none` (the C buffer write is out of range). -/
theorem claim_C2 (w : pr_serialized) :
    pricing_record._load w = none ↔ 128 < w.signature.length := by
  have h := loadSigLoop_none_iff w.signature 0 (List.replicate 64 0)
  simp only [List.length_replicate] at h
  constructor
  · intro hl
    cases hload : loadSigLoop w.signature 0 (List.replicate 64 0) with
    | some sig =>
      simp only [pricing_record._load] at hl
      rw [hload] at hl
      simp at hl
    | none =>
      have := h.mp hload
      omega
  · intro hlen
    have hnil : w.signature ≠ [] := by
      intro hn
      rw [hn] at hlen
      simp at hlen
    have hnone : loadSigLoop w.signature 0 (List.replicate 64 0) = none :=
      h.mpr ⟨hnil, by omega⟩
    simp only [pricing_record._load]
    rw [hnone]

/-- C3: below the activation version `valid` accepts exactly the empty
record, whatever the other inputs; and an empty record is accepted at
every protocol version, network type, block timestamp and previous block
timestamp. -/
theorem claim_C3 (verify : network_type → pricing_record → Bool)
    (hfv skew : Nat) (r : pricing_record) (nettype : network_type)
    (hf_version bl_timestamp last_bl_timestamp : Nat) :
    (hf_version < hfv →
      (pricing_record.valid verify hfv skew r nettype hf_version bl_timestamp
        last_bl_timestamp = true ↔ r.empty = true)) ∧
    (r.empty = true →
      pricing_record.valid verify hfv skew r nettype hf_version bl_timestamp
        last_bl_timestamp = true) := by
  constructor
  · intro hlt
    cases he : r.empty
    · simp [pricing_record.valid, pricing_record.validR, he, hlt]
    · simp [pricing_record.valid, pricing_record.validR, he]
  · intro he
    simp [pricing_record.valid, pricing_record.validR, he]

/-- C3 (witness): with activation version 5, the empty record is accepted
both below activation (version 3) and above it (version 9). -/
theorem claim_C3_witness :
    pricing_record.valid (fun _ _ => false) 5 120 empty_pr .mainnet 3 5 2
      = true ∧
    pricing_record.valid (fun _ _ => false) 5 120 empty_pr .mainnet 9 5 2
      = true :=
  ⟨((claim_C3 (fun _ _ => false) 5 120 empty_pr .mainnet 3 5 2).1
      (by decide)).mpr (by decide),
   (claim_C3 (fun _ _ => false) 5 120 empty_pr .mainnet 9 5 2).2 (by decide)⟩

/-- C4: the byte string `verifySignature` checks the signature against is
exactly the compact text object with the four fields as decimal integers,
in the order pr_version, spot, moving_average, timestamp, no whitespace —
and the signature bytes are not part of the message. -/
theorem claim_C4 (r : pricing_record) :
    pricing_record.buildMessage r =
      specSignedMessage r.pr_version r.spot r.moving_average r.timestamp ∧
    (∀ s, pricing_record.buildMessage { r with signature := s } =
      pricing_record.buildMessage r) := by
  refine ⟨?_, fun s => rfl⟩
  apply String.ext
  simp [pricing_record.buildMessage, specSignedMessage, String.intercalate,
    String.intercalate.go, List.append_assoc, List.cons_append,
    List.nil_append]

/-- C5: `verifySignature` throws only on its public-key precondition (an
empty key string or a key the PEM parser cannot use); in every other case
it returns a boolean — in particular, with a usable key it returns the
conjunction of the crypto-context call outcomes, hence false (not an
error) on a context-initialization failure or a genuine signature
mismatch. -/
theorem claim_C5 (env : evp_env) (public_key : String)
    (r : pricing_record) :
    (∀ e, pricing_record.verifySignature env public_key r = .error e →
      public_key.isEmpty = true ∨ env.pem_read_ok = false) ∧
    (public_key.isEmpty = false → env.bio_new_ok = true →
      env.pem_read_ok = true →
      pricing_record.verifySignature env public_key r =
        .ok (env.ctx_create_ok && env.digest_init_ok &&
          env.digest_update_ok &&
          env.digest_final_ok r.buildMessage r.signature)) := by
  constructor
  · intro e h
    by_cases h0 : public_key.isEmpty = true
    · exact Or.inl h0
    · by_cases h1 : env.bio_new_ok = false
      · simp [pricing_record.verifySignature, h0, h1] at h
      · by_cases h2 : env.pem_read_ok = false
        · exact Or.inr h2
        · exfalso
          cases hc : env.ctx_create_ok <;> cases hi : env.digest_init_ok <;>
            cases hu : env.digest_update_ok <;>
            simp [pricing_record.verifySignature, h0, h1, h2, hc, hi, hu] at h
  · intro h0 h1 h2
    cases hc : env.ctx_create_ok <;> cases hi : env.digest_init_ok <;>
      cases hu : env.digest_update_ok <;>
      simp [pricing_record.verifySignature, h0, h1, h2, hc, hi, hu]

/-- C5 (witness): with a usable one-character key and a failed digest
initialization, verification returns false rather than throwing; and the
throw case implies the precondition violation. -/
theorem claim_C5_witness :
    (("k" : String).isEmpty = true ∨ (false = false)) ∧
    pricing_record.verifySignature
      (evp_env.mk true true true false true (fun _ _ => true)) "k" empty_pr
      = .ok false :=
  ⟨(claim_C5 (evp_env.mk true false true false true (fun _ _ => true))
      "k" empty_pr).1 .unparsable_public_key (by rfl),
   ((claim_C5 (evp_env.mk true true true false true (fun _ _ => true))
      "k" empty_pr).2 (by decide) rfl rfl).trans (by rfl)⟩

/-- C6: a non-empty record with both rates present that passes signature
verification is rejected whenever its timestamp exceeds the block
timestamp plus the skew tolerance, with the comparison read over the
integers (if it exceeds the true sum, it also exceeds the wrapped
`uint64_t` sum, since the wrapped value is never larger); at or above the
activation version the reason is the too-far-in-future rejection. -/
theorem claim_C6 (verify : network_type → pricing_record → Bool)
    (hfv skew : Nat) (r : pricing_record) (nettype : network_type)
    (hf_version bl_timestamp last_bl_timestamp : Nat)
    (hne : r.empty = false) (hmr : r.has_missing_rates = false)
    (hsig : verify nettype r = true)
    (hts : bl_timestamp + skew < r.timestamp) :
    pricing_record.valid verify hfv skew r nettype hf_version bl_timestamp
      last_bl_timestamp = false ∧
    (hfv ≤ hf_version →
      pricing_record.validR verify hfv skew r nettype hf_version bl_timestamp
        last_bl_timestamp = .rejectTimestampTooFarInFuture) := by
  have hmod : (bl_timestamp + skew) % 2 ^ 64 < r.timestamp :=
    lt_of_le_of_lt (Nat.mod_le _ _) hts
  constructor
  · by_cases hv : hf_version < hfv
    · have hR1 : pricing_record.validR verify hfv skew r nettype hf_version
          bl_timestamp last_bl_timestamp = .rejectBeforeActivation := by
        simp [pricing_record.validR, hv, hne]
      simp [pricing_record.valid, hR1]
    · have hR2 : pricing_record.validR verify hfv skew r nettype hf_version
          bl_timestamp last_bl_timestamp =
          .rejectTimestampTooFarInFuture := by
        simp [pricing_record.validR, hne, hmr, hsig, hv, hmod]
        intro h
        exact absurd hmod (Nat.not_lt.mpr h)
      simp [pricing_record.valid, hR2]
  · intro hact
    have hv : ¬ (hf_version < hfv) := by omega
    simp [pricing_record.validR, hne, hmr, hsig, hv, hmod]
    intro h
    exact absurd hmod (Nat.not_lt.mpr h)

/-- C6 (witness): the spec's far-future example — timestamp
2000000000000 against block timestamp 1010 — is rejected as too far in
the future. -/
theorem claim_C6_witness :
    pricing_record.valid (fun _ _ => true) 1 120
      (pricing_record.mk 1 100 95 2000000000000 (List.replicate 64 1))
      .mainnet 1 1010 999 = false ∧
    (1 ≤ 1 →
      pricing_record.validR (fun _ _ => true) 1 120
        (pricing_record.mk 1 100 95 2000000000000 (List.replicate 64 1))
        .mainnet 1 1010 999 = .rejectTimestampTooFarInFuture) :=
  claim_C6 (fun _ _ => true) 1 120
    (pricing_record.mk 1 100 95 2000000000000 (List.replicate 64 1))
    .mainnet 1 1010 999 (by decide) (by decide) rfl (by decide)

/-- C7: for a non-empty record passing the rates and signature checks and
within the future-skew bound at or above activation, the verdict is the
not-advancing rejection exactly when the record timestamp is at most the
previous block timestamp; equivalently, the record is accepted exactly
when its timestamp strictly exceeds the previous block timestamp. -/
theorem claim_C7 (verify : network_type → pricing_record → Bool)
    (hfv skew : Nat) (r : pricing_record) (nettype : network_type)
    (hf_version bl_timestamp last_bl_timestamp : Nat)
    (hne : r.empty = false) (hmr : r.has_missing_rates = false)
    (hsig : verify nettype r = true) (hact : hfv ≤ hf_version)
    (hskew : r.timestamp ≤ (bl_timestamp + skew) % 2 ^ 64) :
    (pricing_record.validR verify hfv skew r nettype hf_version bl_timestamp
      last_bl_timestamp = .rejectTimestampNotAdvancing ↔
        r.timestamp ≤ last_bl_timestamp) ∧
    (pricing_record.valid verify hfv skew r nettype hf_version bl_timestamp
      last_bl_timestamp = true ↔ last_bl_timestamp < r.timestamp) := by
  have hv : ¬ (hf_version < hfv) := by omega
  have h5 : ¬ ((bl_timestamp + skew) % 2 ^ 64 < r.timestamp) := by omega
  have hR : pricing_record.validR verify hfv skew r nettype hf_version
      bl_timestamp last_bl_timestamp =
      (if r.timestamp ≤ last_bl_timestamp then
        valid_outcome.rejectTimestampNotAdvancing else .accept) := by
    simp [pricing_record.validR, hne, hmr, hsig, hv, h5]
    intro hh
    exact absurd hh h5
  constructor
  · rw [hR]
    by_cases h : r.timestamp ≤ last_bl_timestamp <;> simp [h]
  · simp only [pricing_record.valid]
    rw [hR]
    by_cases h : r.timestamp ≤ last_bl_timestamp
    · simp [h]
    · simp [h]
      omega

/-- C7 (witness): the spec's equal-timestamp example — record timestamp
1000 with previous block timestamp 1000 — is rejected as not advancing,
and is not accepted. -/
theorem claim_C7_witness :
    (pricing_record.validR (fun _ _ => true) 1 120
      (pricing_record.mk 1 100 95 1000 (List.replicate 64 1))
      .mainnet 1 1010 1000 = .rejectTimestampNotAdvancing ↔ 1000 ≤ 1000) ∧
    (pricing_record.valid (fun _ _ => true) 1 120
      (pricing_record.mk 1 100 95 1000 (List.replicate 64 1))
      .mainnet 1 1010 1000 = true ↔ 1000 < 1000) :=
  claim_C7 (fun _ _ => true) 1 120
    (pricing_record.mk 1 100 95 1000 (List.replicate 64 1))
    .mainnet 1 1010 1000 (by decide) (by decide) rfl (by decide) (by decide)

/-- C8: a non-empty record with a zero spot or zero moving average is
rejected with the missing-rates reason at or above the activation version,
for every signature-verification outcome — the rates check is decided
before signature verification is consulted, which the universal
quantification over the verification function expresses. -/
theorem claim_C8 (verify : network_type → pricing_record → Bool)
    (hfv skew : Nat) (r : pricing_record) (nettype : network_type)
    (hf_version bl_timestamp last_bl_timestamp : Nat)
    (hne : r.empty = false) (hact : hfv ≤ hf_version)
    (hmr : r.spot = 0 ∨ r.moving_average = 0) :
    pricing_record.validR verify hfv skew r nettype hf_version bl_timestamp
      last_bl_timestamp = .rejectMissingRates ∧
    pricing_record.valid verify hfv skew r nettype hf_version bl_timestamp
      last_bl_timestamp = false := by
  have hmr2 : r.has_missing_rates = true := by
    rcases hmr with h | h <;> simp [pricing_record.has_missing_rates, h]
  have h1 : ¬ (hf_version < hfv) := by omega
  have hR : pricing_record.validR verify hfv skew r nettype hf_version
      bl_timestamp last_bl_timestamp = .rejectMissingRates := by
    simp [pricing_record.validR, hne, hmr2, h1]
  exact ⟨hR, by simp [pricing_record.valid, hR]⟩

/-- C8 (witness): a non-empty record with zero spot is rejected for
missing rates even though the verification function would accept it. -/
theorem claim_C8_witness :
    pricing_record.validR (fun _ _ => true) 1 120
      (pricing_record.mk 1 0 95 1000 (List.replicate 64 1))
      .mainnet 1 1010 999 = .rejectMissingRates ∧
    pricing_record.valid (fun _ _ => true) 1 120
      (pricing_record.mk 1 0 95 1000 (List.replicate 64 1))
      .mainnet 1 1010 999 = false :=
  claim_C8 (fun _ _ => true) 1 120
    (pricing_record.mk 1 0 95 1000 (List.replicate 64 1))
    .mainnet 1 1010 999 (by decide) (by decide) (Or.inl rfl)

/-- C9: the wire round trip is the identity — `store` renders a record
(integer fields plus the 128-character lowercase hex of the 64 signature
bytes) and `_load` decodes it back to the same record; and on every
64-byte signature buffer, hex rendering followed by hex decoding is the
identity. -/
theorem claim_C9 (r : pricing_record) (hlen : r.signature.length = 64)
    (hbytes : ∀ b ∈ r.signature, b < 256) :
    pricing_record._load (pricing_record.store r) = some r ∧
    loadSigLoop (sigToHex r.signature) 0 (List.replicate 64 0) =
      some r.signature := by
  have h2 := loadSigLoop_sigToHex r.signature hlen hbytes
  refine ⟨?_, h2⟩
  simp only [pricing_record._load, pricing_record.store]
  rw [h2]

/-- C9 (witness): the concrete record with signature bytes 0..63 round
trips through the wire encoding. -/
theorem claim_C9_witness :
    pricing_record._load
      (pricing_record.store (pricing_record.mk 1 2 3 4 (List.range 64))) =
      some (pricing_record.mk 1 2 3 4 (List.range 64)) ∧
    loadSigLoop (sigToHex (List.range 64)) 0 (List.replicate 64 0) =
      some (List.range 64) :=
  claim_C9 (pricing_record.mk 1 2 3 4 (List.range 64)) (by decide) (by decide)

/-- C10: binary-blob deserialization of a pricing record fails — producing
no record at all — exactly when fewer than the fixed layout size (96
bytes) remain in the archive; with at least that many bytes it reads the
whole 96-byte blob, consuming exactly that many bytes. -/
theorem claim_C10 (ar : binary_archive) :
    (do_serialize_read ar = none ↔
      ar.remaining_bytes < SIZEOF_PRICING_RECORD) ∧
    (SIZEOF_PRICING_RECORD ≤ ar.remaining_bytes →
      do_serialize_read ar =
        some (recordOfBlob ((ar.data.drop ar.pos).take SIZEOF_PRICING_RECORD),
          binary_archive.mk ar.data (ar.pos + SIZEOF_PRICING_RECORD))) := by
  by_cases h : ar.remaining_bytes < SIZEOF_PRICING_RECORD
  · constructor
    · simp [do_serialize_read, h]
    · intro h2
      exact absurd h2 (by omega)
  · have hle : ar.pos + 96 ≤ ar.data.length := by
      simp only [binary_archive.remaining_bytes, SIZEOF_PRICING_RECORD] at h
      omega
    have h96 : 96 ≤ ar.remaining_bytes := by
      simp only [SIZEOF_PRICING_RECORD] at h
      omega
    constructor
    · simp [do_serialize_read, h, serialize_blob_read, hle,
        SIZEOF_PRICING_RECORD]
    · intro _
      simp [do_serialize_read, h, serialize_blob_read, hle,
        SIZEOF_PRICING_RECORD, h96]

/-- C10 (witness): a 96-byte all-zero archive decodes to the empty record
with the position advanced by exactly 96 bytes. -/
theorem claim_C10_witness :
    do_serialize_read (binary_archive.mk (List.replicate 96 0) 0) =
      some (empty_pr, binary_archive.mk (List.replicate 96 0) 96) :=
  ((claim_C10 (binary_archive.mk (List.replicate 96 0) 0)).2
    (by decide)).trans (by decide)

end oracle
